import Mathlib

/-!
Verification of the TDX daily-bar decoder (src/parse_tdx_day.py).

The embedding mirrors the single function `parse_tdx_day_file`:
reading a binary file as a byte sequence, cutting it into 32-byte
chunks, unpacking each chunk with the fixed little-endian layout
`<IIIIIfII`, parsing the date field with `datetime.strptime(str(n),
'%Y%m%d')`, scaling the four price fields by `/ 100.0` (IEEE-754
double division), accumulating rows, and sorting them by date.

Bytes are modelled as `List Nat` (each element intended `< 256`).
The filesystem interaction is modelled by the three environment
outcomes the source distinguishes: the path does not exist
(`os.path.exists` is false), an exception is raised while opening or
reading, or the whole byte content is read successfully.
-/

namespace TdxDay

/-- Little-endian unsigned 32-bit read at byte offset `i` of a byte list
(out-of-range reads give 0; they never happen after the length check,
mirroring `struct.unpack` which refuses short buffers). -/
def u32At (b : List Nat) (i : Nat) : Nat :=
  b.getD i 0 + 256 * b.getD (i + 1) 0 + 65536 * b.getD (i + 2) 0 +
    16777216 * b.getD (i + 3) 0

/-- The eight fields of `struct.unpack('<IIIIIfII', buffer)`, in tuple order
(`unpacked_data[0]` .. `unpacked_data[7]`).  The `f` field (amount) is kept
as its raw 32-bit pattern; its numeric value is recovered by `f32toRat`. -/
structure Unpacked where
  date_int : Nat
  open_raw : Nat
  high_raw : Nat
  low_raw : Nat
  close_raw : Nat
  amount_bits : Nat
  volume : Nat
  reserved : Nat
deriving DecidableEq, Repr

/-- `struct.unpack('<IIIIIfII', buffer)`: raises `struct.error` (here:
`none`) exactly when the buffer length differs from `calcsize = 32`. -/
def structUnpack (b : List Nat) : Option Unpacked :=
  if b.length = 32 then
    some ⟨u32At b 0, u32At b 4, u32At b 8, u32At b 12, u32At b 16,
          u32At b 20, u32At b 24, u32At b 28⟩
  else none

/-- Exact rational value of an IEEE-754 binary32 bit pattern, as produced
by the `f` conversion of `struct.unpack`.  Finite values are decoded
exactly; the non-rational values (exponent 255: infinities and NaNs) are
mapped to 0 — no claim concerns them. -/
def f32toRat (bits : Nat) : ℚ :=
  let s : Nat := bits / 2 ^ 31 % 2
  let e : Nat := bits / 2 ^ 23 % 256
  let f : Nat := bits % 2 ^ 23
  let mag : ℚ :=
    if e = 0 then (f : ℚ) * (2 : ℚ) ^ (-(149 : ℤ))
    else if e = 255 then 0
    else ((2 ^ 23 + f : Nat) : ℚ) * (2 : ℚ) ^ ((e : ℤ) - 150)
  if s = 1 then -mag else mag

/-- Binary digit count of `n` (0 for 0), computed with explicit fuel so
that the kernel can evaluate it; `bitlen 64 n` is exact for `n < 2 ^ 64`. -/
def bitlen : Nat → Nat → Nat
  | 0, _ => 0
  | fuel + 1, n => if n = 0 then 0 else bitlen fuel (n / 2) + 1

/-- The exact rational value of the IEEE-754 binary64 (Python float) result
of `n / 100.0`, for `n < 2 ^ 32` (the domain the decoder feeds it: unsigned
32-bit price fields).  Both operands are exact doubles and the result is in
the normal range, so the result is `n/100` rounded to 53 significant bits.
With `L = bitlen n`, the floor of `log₂ (n/100)` is `L - 8`, or `L - 7`
when `32 * n ≥ 25 * 2 ^ L`; the scale `s` below is `52` minus that floor,
and the mantissa is the nearest integer to `n * 2 ^ s / 100`.  The rounding
here is half-up, which coincides with the half-even rounding of IEEE-754
because `n * 2 ^ s / 100` can never be an exact midpoint: a midpoint would
force `n * 2 ^ s ≡ 50 [MOD 100]`, impossible since `4 ∣ n * 2 ^ s` for
`s ≥ 2` while `50 % 4 = 2`. -/
def div100fl (n : Nat) : ℚ :=
  if n = 0 then 0
  else
    let L := bitlen 64 n
    let s : Nat := if 25 * 2 ^ L ≤ 32 * n then 59 - L else 60 - L
    let m : Nat := (2 * n * 2 ^ s + 100) / 200
    (m : ℚ) / 2 ^ s

/-- Gregorian leap year test, as `datetime.date` uses. -/
def isLeap (y : Nat) : Bool :=
  y % 4 = 0 && (y % 100 != 0 || y % 400 = 0)

/-- Length of month `m` of year `y`, as `datetime.date` validates. -/
def daysInMonth (y m : Nat) : Nat :=
  if m = 2 then (if isLeap y then 29 else 28)
  else if m = 4 ∨ m = 6 ∨ m = 9 ∨ m = 11 then 30
  else 31

/-- `datetime.strptime(str(n), '%Y%m%d')` (line 68 of the source), i.e.
matching the decimal digits of `n` (no leading zeros) against the CPython
regex `(?P<Y>\d\d\d\d)(?P<m>1[0-2]|0[1-9]|[1-9])(?P<d>3[01]|[12]\d|0[1-9]|[1-9])`
with leftmost-preference backtracking, then requiring that the match
consume the whole string, then validating the day against the month length.
Consequences, case by digit count of `n`:
* 9 or more digits: any successful match covers at most 8 characters,
  leaving unconverted data — `ValueError` (`none`).
* 8 digits: only the (2-digit month, 2-digit day) split can cover all 8
  characters; the regex prefers it, so success iff chars 4-5 are a month
  01..12, chars 6-7 a day 01..31, and the day fits the month.
* 7 digits: the regex first tries a 2-digit month with a 1-digit day
  (day char in 1..9, always a valid day); if the month or day character
  classes fail it backtracks to a 1-digit month (char in 1..9) with a
  2-digit day 01..31, validated against the month.
* 6 digits: 1-digit month and 1-digit day, each char in 1..9.
* 5 or fewer digits: `%Y` requires exactly 4 digits and the month and day
  groups at least one character each with no full cover — `none`.
Years are the first four digits, hence in 1000..9999 (a decimal rendering
has no leading zero), always acceptable to `datetime`. -/
def parseYMD (n : Nat) : Option (Nat × Nat × Nat) :=
  if 100000000 ≤ n then none
  else if 10000000 ≤ n then
    let y := n / 10000
    let m := n / 100 % 100
    let d := n % 100
    if 1 ≤ m ∧ m ≤ 12 ∧ 1 ≤ d ∧ d ≤ 31 then
      if d ≤ daysInMonth y m then some (y, m, d) else none
    else none
  else if 1000000 ≤ n then
    let y := n / 1000
    let m2 := n / 10 % 100
    let d1 := n % 10
    if 1 ≤ m2 ∧ m2 ≤ 12 ∧ 1 ≤ d1 then some (y, m2, d1)
    else
      let m1 := n / 100 % 10
      let d2 := n % 100
      if 1 ≤ m1 ∧ m1 ≤ 9 ∧ 1 ≤ d2 ∧ d2 ≤ 31 then
        if d2 ≤ daysInMonth y m1 then some (y, m1, d2) else none
      else none
  else if 100000 ≤ n then
    let y := n / 100
    let m := n / 10 % 10
    let d := n % 10
    if 1 ≤ m ∧ m ≤ 9 ∧ 1 ≤ d then some (y, m, d) else none
  else none

/-- One decoded row, as appended to `data_list` (lines 82-91 of the
source).  The date is the `(year, month, day)` triple behind the
`YYYY-MM-DD` string; `amount` is the exact value of the unpacked binary32
field; prices carry the exact value of the Python float division by 100. -/
structure PriceBar where
  date : Nat × Nat × Nat
  stock_code : List Char
  open_price : ℚ
  high_price : ℚ
  low_price : ℚ
  close_price : ℚ
  volume : Nat
  amount : ℚ
deriving DecidableEq, Repr

/-- `str.replace('.day', '')` applied to the base name: removes every
(left-to-right, non-overlapping) occurrence of the substring `.day`. -/
def removeDay : List Char → List Char
  | '.' :: 'd' :: 'a' :: 'y' :: rest => removeDay rest
  | c :: rest => c :: removeDay rest
  | [] => []

/-- Diagnostics the decoder prints: missing file (line 30), per-record
`struct.error` (line 94), per-record invalid date (line 70), whole-read
failure (line 98), and the zero-rows message (line 103).  Informational
prints (start banner, success summary) are not diagnostics and are not
modelled. -/
inductive Diag where
  | fileNotFound
  | unpackError
  | invalidDate (dateInt : Nat)
  | readError
  | emptyResult
deriving DecidableEq, Repr

/-- Decode of a single chunk, combining the unpack and the date check;
`none` when the loop body would `continue` without appending. -/
def decodeChunk (code : List Char) (chunk : List Nat) : Option PriceBar :=
  match structUnpack chunk with
  | none => none
  | some u =>
    match parseYMD u.date_int with
    | none => none
    | some ymd =>
      some ⟨ymd, code, div100fl u.open_raw, div100fl u.high_raw,
            div100fl u.low_raw, div100fl u.close_raw, u.volume,
            f32toRat u.amount_bits⟩

/-- The read loop (lines 44-95): repeatedly take 32 bytes; stop on a short
read; on `struct.error` or an invalid date emit a diagnostic and continue;
otherwise append the decoded row.  The fuel argument only bounds the
iteration count; `bytes.length` iterations always suffice since each one
consumes 32 bytes. -/
def parseLoop (code : List Char) : Nat → List Nat → List PriceBar × List Diag
  | 0, _ => ([], [])
  | fuel + 1, bytes =>
    if bytes.length < 32 then ([], [])
    else
      match structUnpack (bytes.take 32) with
      | none =>
        let r := parseLoop code fuel (bytes.drop 32)
        (r.1, Diag.unpackError :: r.2)
      | some u =>
        match parseYMD u.date_int with
        | none =>
          let r := parseLoop code fuel (bytes.drop 32)
          (r.1, Diag.invalidDate u.date_int :: r.2)
        | some ymd =>
          let r := parseLoop code fuel (bytes.drop 32)
          (⟨ymd, code, div100fl u.open_raw, div100fl u.high_raw,
            div100fl u.low_raw, div100fl u.close_raw, u.volume,
            f32toRat u.amount_bits⟩ :: r.1, r.2)

/-- Sort key of a row: `pd.to_datetime` on `YYYY-MM-DD` strings orders
dates lexicographically on (year, month, day); with month and day below
100 this is the order of `y * 10000 + m * 100 + d`. -/
def dateKey (t : Nat × Nat × Nat) : Nat :=
  t.1 * 10000 + t.2.1 * 100 + t.2.2

/-- The comparison behind `df.sort_values(by='date', ascending=True)`. -/
def barLE (a b : PriceBar) : Prop :=
  dateKey a.date ≤ dateKey b.date

instance : DecidableRel barLE := fun a b =>
  Nat.decLe (dateKey a.date) (dateKey b.date)

instance barLE_total : IsTotal PriceBar barLE :=
  ⟨fun a b => Nat.le_total (dateKey a.date) (dateKey b.date)⟩

instance barLE_trans : IsTrans PriceBar barLE :=
  ⟨fun _ _ _ h h2 => Nat.le_trans h h2⟩

/-- Whether a (midnight) date fits a pandas nanosecond `Timestamp`
(an int64 count of nanoseconds since 1970-01-01): `Timestamp.min` is
1677-09-21 00:12:43.145224193, so the first representable midnight is
1677-09-22, and `Timestamp.max` is 2262-04-11 23:47:16.854775807, so the
last representable midnight is 2262-04-11.  `pd.to_datetime` raises
`OutOfBoundsDatetime` outside this range. -/
def dateInBounds (t : Nat × Nat × Nat) : Bool :=
  16770922 ≤ dateKey t && dateKey t ≤ 22620411

/-- The three environment outcomes the source distinguishes: the path does
not exist; opening or reading raises (the `except Exception` at line 97,
which discards any partially accumulated rows); or the full byte content
is obtained. -/
inductive FileInput where
  | missing
  | ioError
  | content (bytes : List Nat)
deriving DecidableEq

/-- How the Python call terminates: by returning a value (`DataFrame`
rows, or Python `None` — `Option.none`), or by propagating the uncaught
`OutOfBoundsDatetime` that `pd.to_datetime` (line 109, outside the
`try/except` ending at line 99) raises when an accumulated row's date
falls outside the pandas `Timestamp` range. -/
inductive PyOutcome where
  | value (v : Option (List PriceBar))
  | raised
deriving DecidableEq, Repr

/-- What one call of the decoder produces: how it terminates, together
with the diagnostics printed along the way. -/
structure DecodeOutcome where
  result : PyOutcome
  diags : List Diag
deriving DecidableEq, Repr

/-- `parse_tdx_day_file` (lines 17-119): existence check; stock code from
the base name by `.replace('.day', '')`; the read loop; `None` plus a
diagnostic when no rows were decoded (line 102-104, before the DataFrame
stage); then `pd.to_datetime` (line 109), which raises an uncaught
`OutOfBoundsDatetime` if any decoded date is outside the pandas
`Timestamp` range; otherwise the rows sorted ascending by date.  The
`name` argument is the base name of the path (`os.path.basename`). -/
def parse_tdx_day_file (name : List Char) (input : FileInput) : DecodeOutcome :=
  match input with
  | .missing => ⟨.value none, [Diag.fileNotFound]⟩
  | .ioError => ⟨.value none, [Diag.readError]⟩
  | .content bytes =>
    let stock_code := removeDay name
    let r := parseLoop stock_code bytes.length bytes
    if r.1.isEmpty then ⟨.value none, r.2 ++ [Diag.emptyResult]⟩
    else if r.1.all (fun bar => dateInBounds bar.date) then
      ⟨.value (some (List.insertionSort barLE r.1)), r.2⟩
    else ⟨.raised, r.2⟩

/-- Little-endian 4-byte encoding of `n`, for building record inputs. -/
def le32 (n : Nat) : List Nat :=
  [n % 256, n / 256 % 256, n / 65536 % 256, n / 16777216 % 256]

/-- A full 32-byte record from its eight field values. -/
def recordBytes (d o h l c a v r : Nat) : List Nat :=
  le32 d ++ le32 o ++ le32 h ++ le32 l ++ le32 c ++ le32 a ++ le32 v ++ le32 r

/-- Stated from the spec's words, for comparison with the source's
`removeDay`: the base name "with its extension stripped", i.e. without its
final dot-suffix (unchanged when no dot occurs). -/
def specStripExt (name : List Char) : List Char :=
  match name.reverse.dropWhile (fun c => c ≠ '.') with
  | [] => name
  | _ :: rest => rest.reverse

/-! ### Loop lemmas -/

theorem parseLoop_succ (code : List Char) (fuel : Nat) (bytes : List Nat) :
    parseLoop code (fuel + 1) bytes =
      if bytes.length < 32 then ([], [])
      else
        match structUnpack (bytes.take 32) with
        | none =>
          let r := parseLoop code fuel (bytes.drop 32)
          (r.1, Diag.unpackError :: r.2)
        | some u =>
          match parseYMD u.date_int with
          | none =>
            let r := parseLoop code fuel (bytes.drop 32)
            (r.1, Diag.invalidDate u.date_int :: r.2)
          | some ymd =>
            let r := parseLoop code fuel (bytes.drop 32)
            (⟨ymd, code, div100fl u.open_raw, div100fl u.high_raw,
              div100fl u.low_raw, div100fl u.close_raw, u.volume,
              f32toRat u.amount_bits⟩ :: r.1, r.2) := rfl

theorem parseLoop_short (code : List Char) (fuel : Nat) (bytes : List Nat)
    (h : bytes.length < 32) : parseLoop code fuel bytes = ([], []) := by
  cases fuel with
  | zero => rfl
  | succ f => rw [parseLoop_succ]; simp [h]

theorem parseLoop_fuelEq (code : List Char) :
    ∀ f₁ f₂ (bytes : List Nat), bytes.length ≤ f₁ → bytes.length ≤ f₂ →
      parseLoop code f₁ bytes = parseLoop code f₂ bytes := by
  intro f₁
  induction f₁ with
  | zero =>
    intro f₂ bytes h₁ _
    have hb : bytes.length < 32 := by omega
    rw [parseLoop_short code 0 bytes hb, parseLoop_short code f₂ bytes hb]
  | succ f ih =>
    intro f₂ bytes h₁ h₂
    by_cases hb : bytes.length < 32
    · rw [parseLoop_short code _ bytes hb, parseLoop_short code f₂ bytes hb]
    · cases f₂ with
      | zero => omega
      | succ g =>
        rw [parseLoop_succ, parseLoop_succ]
        have hd : (bytes.drop 32).length = bytes.length - 32 := by
          simp
        have ihd : parseLoop code f (bytes.drop 32) =
            parseLoop code g (bytes.drop 32) := by
          apply ih; omega; omega
        simp only [if_neg hb, ihd]

/-- Unfolding one 32-byte chunk at the head of the input, stated with the
fuel the top-level call uses. -/
theorem parseLoop_chunk (code : List Char) (ch rest : List Nat)
    (h : ch.length = 32) :
    parseLoop code (ch ++ rest).length (ch ++ rest) =
      match structUnpack ch with
      | none =>
        let r := parseLoop code rest.length rest
        (r.1, Diag.unpackError :: r.2)
      | some u =>
        match parseYMD u.date_int with
        | none =>
          let r := parseLoop code rest.length rest
          (r.1, Diag.invalidDate u.date_int :: r.2)
        | some ymd =>
          let r := parseLoop code rest.length rest
          (⟨ymd, code, div100fl u.open_raw, div100fl u.high_raw,
            div100fl u.low_raw, div100fl u.close_raw, u.volume,
            f32toRat u.amount_bits⟩ :: r.1, r.2) := by
  have hlen : (ch ++ rest).length = rest.length + 31 + 1 := by
    simp [h]; omega
  have htake : (ch ++ rest).take 32 = ch := by
    rw [← h]; exact List.take_left ch rest
  have hdrop : (ch ++ rest).drop 32 = rest := by
    rw [← h]; exact List.drop_left ch rest
  have hge : ¬ (ch ++ rest).length < 32 := by
    simp [h]
  rw [hlen, parseLoop_succ]
  rw [hlen] at hge
  have hrec : parseLoop code (rest.length + 31) ((ch ++ rest).drop 32) =
      parseLoop code rest.length rest := by
    rw [hdrop]; apply parseLoop_fuelEq <;> omega
  simp only [hlen, if_neg hge, htake, hrec]

theorem structUnpack_of_len32 {b : List Nat} (h : b.length = 32) :
    structUnpack b =
      some ⟨u32At b 0, u32At b 4, u32At b 8, u32At b 12, u32At b 16,
            u32At b 20, u32At b 24, u32At b 28⟩ := by
  simp [structUnpack, h]

/-- On a concatenation of full 32-byte chunks, the accumulated rows are
exactly the per-chunk decodes that succeed, in file order. -/
theorem parseLoop_flatten_bars :
    ∀ (chunks : List (List Nat)) (code : List Char),
      (∀ ch ∈ chunks, ch.length = 32) →
      (parseLoop code chunks.flatten.length chunks.flatten).1 =
        chunks.filterMap (decodeChunk code) := by
  intro chunks
  induction chunks with
  | nil => intro code _; rfl
  | cons c cs ih =>
    intro code hlen
    have hc : c.length = 32 := hlen c (List.mem_cons_self c cs)
    have hcs : ∀ ch ∈ cs, ch.length = 32 := fun ch hm =>
      hlen ch (List.mem_cons_of_mem c hm)
    have ih2 := ih code hcs
    rw [List.flatten_cons, parseLoop_chunk code c cs.flatten hc]
    rw [structUnpack_of_len32 hc]
    rcases hp : parseYMD (u32At c 0) with _ | ymd <;>
      simp only [List.filterMap_cons, decodeChunk, structUnpack_of_len32 hc,
        hp, ih2]

/-- Every accumulated row carries the stock code derived from the file
name; rows never carry any other identifier. -/
theorem parseLoop_stock_code :
    ∀ (fuel : Nat) (bytes : List Nat) (code : List Char) (bar : PriceBar),
      bar ∈ (parseLoop code fuel bytes).1 → bar.stock_code = code := by
  intro fuel
  induction fuel with
  | zero => intro bytes code bar h; simp [parseLoop] at h
  | succ f ih =>
    intro bytes code bar h
    rw [parseLoop_succ] at h
    by_cases hb : bytes.length < 32
    · simp [hb] at h
    · rw [if_neg hb] at h
      rcases hu : structUnpack (bytes.take 32) with _ | u
      · simp only [hu] at h
        exact ih _ code bar h
      · simp only [hu] at h
        rcases hp : parseYMD u.date_int with _ | ymd
        · simp only [hp] at h
          exact ih _ code bar h
        · simp only [hp] at h
          rcases List.mem_cons.1 h with he | hm
          · rw [he]
          · exact ih _ code bar hm

/-- The `struct.error` diagnostic is never emitted: the loop only unpacks
buffers that passed the 32-byte length check, and `struct.unpack` succeeds
on every such buffer. -/
theorem parseLoop_no_unpackError :
    ∀ (fuel : Nat) (bytes : List Nat) (code : List Char),
      Diag.unpackError ∉ (parseLoop code fuel bytes).2 := by
  intro fuel
  induction fuel with
  | zero => intro bytes code h; simp [parseLoop] at h
  | succ f ih =>
    intro bytes code h
    rw [parseLoop_succ] at h
    by_cases hb : bytes.length < 32
    · simp [hb] at h
    · rw [if_neg hb] at h
      have hlen : (bytes.take 32).length = 32 := by
        simp; omega
      rw [structUnpack_of_len32 hlen] at h
      rcases hp : parseYMD (u32At (bytes.take 32) 0) with _ | ymd
      · simp only [hp] at h
        rcases List.mem_cons.1 h with he | hm
        · exact Diag.noConfusion he
        · exact ih _ code hm
      · simp only [hp] at h
        exact ih _ code h

/-- The loop never looks past the last full 32-byte chunk: truncating the
byte sequence to a multiple of 32 does not change its outcome. -/
theorem parseLoop_take :
    ∀ (fuel : Nat) (bytes : List Nat) (code : List Char),
      parseLoop code fuel bytes =
        parseLoop code fuel (bytes.take (bytes.length / 32 * 32)) := by
  intro fuel
  induction fuel with
  | zero => intro bytes code; rfl
  | succ f ih =>
    intro bytes code
    by_cases hb : bytes.length < 32
    · have h0 : bytes.length / 32 * 32 = 0 := by omega
      rw [h0]
      rw [parseLoop_short code _ bytes hb, parseLoop_short]
      simp
    · have hK : 32 ≤ bytes.length / 32 * 32 := by omega
      have hKle : bytes.length / 32 * 32 ≤ bytes.length := Nat.div_mul_le_self _ _
      have hlenK : (bytes.take (bytes.length / 32 * 32)).length =
          bytes.length / 32 * 32 := by
        simp; omega
      rw [parseLoop_succ, parseLoop_succ]
      have hb2 : ¬ (bytes.take (bytes.length / 32 * 32)).length < 32 := by
        rw [hlenK]; omega
      rw [if_neg hb, if_neg hb2]
      have htake : (bytes.take (bytes.length / 32 * 32)).take 32 = bytes.take 32 := by
        rw [List.take_take]
        congr 1
        omega
      have hdrop : (bytes.take (bytes.length / 32 * 32)).drop 32 =
          (bytes.drop 32).take ((bytes.drop 32).length / 32 * 32) := by
        rw [List.drop_take]
        congr 1
        simp
        omega
      rw [htake, hdrop, ← ih]

/-! ### Arithmetic lemmas -/

theorem daysInMonth_le31 (y m : Nat) : daysInMonth y m ≤ 31 := by
  unfold daysInMonth
  split
  · split <;> omega
  · split <;> omega

theorem bitlen_le : ∀ (fuel k n : Nat), n < 2 ^ k → k ≤ fuel →
    bitlen fuel n ≤ k := by
  intro fuel
  induction fuel with
  | zero => intro k n _ _; exact Nat.zero_le k
  | succ f ih =>
    intro k n hn _
    show (if n = 0 then 0 else bitlen f (n / 2) + 1) ≤ k
    by_cases h0 : n = 0
    · rw [if_pos h0]; exact Nat.zero_le k
    · rw [if_neg h0]
      cases k with
      | zero => norm_num at hn; omega
      | succ t =>
        have h2 : (2 : Nat) ^ (t + 1) = 2 * 2 ^ t := by ring
        have hh : n / 2 < 2 ^ t := by omega
        have hfuel : t ≤ f := by
          by_contra hf
          have hbig : 2 ^ f ≤ 2 ^ t := Nat.pow_le_pow_right (by omega) (by omega)
          omega
        have := ih t (n / 2) hh hfuel
        omega

theorem parseYMD_valid (y m d : Nat) (hy1 : 1000 ≤ y) (hy2 : y ≤ 9999)
    (hm1 : 1 ≤ m) (hm2 : m ≤ 12) (hd1 : 1 ≤ d) (hd2 : d ≤ daysInMonth y m) :
    parseYMD (y * 10000 + m * 100 + d) = some (y, m, d) := by
  have hdim := daysInMonth_le31 y m
  have h31 : d ≤ 31 := le_trans hd2 hdim
  have h1 : ¬ 100000000 ≤ y * 10000 + m * 100 + d := by omega
  have h2 : 10000000 ≤ y * 10000 + m * 100 + d := by omega
  have e1 : (y * 10000 + m * 100 + d) / 10000 = y := by omega
  have e2 : (y * 10000 + m * 100 + d) / 100 % 100 = m := by omega
  have e3 : (y * 10000 + m * 100 + d) % 100 = d := by omega
  simp only [parseYMD, e1, e2, e3]
  rw [if_neg h1, if_pos h2, if_pos ⟨hm1, hm2, hd1, h31⟩, if_pos hd2]

theorem structUnpack_recordBytes (d o h l c a v r : Nat) :
    structUnpack (recordBytes d o h l c a v r) =
      some ⟨d % 2 ^ 32, o % 2 ^ 32, h % 2 ^ 32, l % 2 ^ 32, c % 2 ^ 32,
            a % 2 ^ 32, v % 2 ^ 32, r % 2 ^ 32⟩ := by
  have key : ∀ x : Nat,
      x % 256 + 256 * (x / 256 % 256) + 65536 * (x / 65536 % 256) +
        16777216 * (x / 16777216 % 256) = x % 2 ^ 32 := by
    intro x; omega
  have hlen : (recordBytes d o h l c a v r).length = 32 := by
    simp [recordBytes, le32]
  have e0 : u32At (recordBytes d o h l c a v r) 0 = d % 2 ^ 32 := key d
  have e1 : u32At (recordBytes d o h l c a v r) 4 = o % 2 ^ 32 := key o
  have e2 : u32At (recordBytes d o h l c a v r) 8 = h % 2 ^ 32 := key h
  have e3 : u32At (recordBytes d o h l c a v r) 12 = l % 2 ^ 32 := key l
  have e4 : u32At (recordBytes d o h l c a v r) 16 = c % 2 ^ 32 := key c
  have e5 : u32At (recordBytes d o h l c a v r) 20 = a % 2 ^ 32 := key a
  have e6 : u32At (recordBytes d o h l c a v r) 24 = v % 2 ^ 32 := key v
  have e7 : u32At (recordBytes d o h l c a v r) 28 = r % 2 ^ 32 := key r
  rw [structUnpack_of_len32 hlen, e0, e1, e2, e3, e4, e5, e6, e7]

theorem decodeChunk_recordBytes (y m d o h l c a v r : Nat) (code : List Char)
    (hy1 : 1000 ≤ y) (hy2 : y ≤ 9999) (hm1 : 1 ≤ m) (hm2 : m ≤ 12)
    (hd1 : 1 ≤ d) (hd2 : d ≤ daysInMonth y m)
    (ho : o < 2 ^ 32) (hh : h < 2 ^ 32) (hl : l < 2 ^ 32) (hc : c < 2 ^ 32)
    (ha : a < 2 ^ 32) (hv : v < 2 ^ 32) :
    decodeChunk code (recordBytes (y * 10000 + m * 100 + d) o h l c a v r) =
      some ⟨(y, m, d), code, div100fl o, div100fl h, div100fl l, div100fl c,
            v, f32toRat a⟩ := by
  have hD : (y * 10000 + m * 100 + d) % 2 ^ 32 = y * 10000 + m * 100 + d := by
    have := daysInMonth_le31 y m
    omega
  simp only [decodeChunk, structUnpack_recordBytes, hD,
    Nat.mod_eq_of_lt ho, Nat.mod_eq_of_lt hh, Nat.mod_eq_of_lt hl,
    Nat.mod_eq_of_lt hc, Nat.mod_eq_of_lt ha, Nat.mod_eq_of_lt hv,
    parseYMD_valid y m d hy1 hy2 hm1 hm2 hd1 hd2]

/-- The correctly rounded mantissa-over-power-of-two form of `n / 100.0`
recovers the exact rational `n/100` precisely when `25 ∣ n` (the power of
two in the scale absorbs the factor 4 of 100, never the factor 25). -/
theorem round_div100_eq_iff (n s : Nat) (hs : 2 ≤ s) :
    ((((2 * n * 2 ^ s + 100) / 200 : Nat) : ℚ) / 2 ^ s = (n : ℚ) / 100) ↔
      25 ∣ n := by
  have h100 : (100 : ℚ) ≠ 0 := by norm_num
  have h2s : ((2 : ℚ) ^ s) ≠ 0 := by positivity
  constructor
  · intro h
    rw [div_eq_div_iff h2s h100] at h
    have hnat : ((2 * n * 2 ^ s + 100) / 200 : Nat) * 100 = n * 2 ^ s := by
      exact_mod_cast h
    have h25 : 25 ∣ n * 2 ^ s :=
      ⟨((2 * n * 2 ^ s + 100) / 200) * 4, by omega⟩
    have hcop : Nat.Coprime 25 (2 ^ s) :=
      Nat.Coprime.pow_right s (by decide)
    exact hcop.dvd_of_dvd_mul_right h25
  · rintro ⟨k, rfl⟩
    obtain ⟨t, rfl⟩ : ∃ t, s = t + 2 := ⟨s - 2, by omega⟩
    have hm : (2 * (25 * k) * 2 ^ (t + 2) + 100) / 200 = k * 2 ^ t := by
      have h4 : (2 : Nat) ^ (t + 2) = 2 ^ t * 4 := by ring
      rw [h4]
      have : 2 * (25 * k) * (2 ^ t * 4) = 200 * (k * 2 ^ t) := by ring
      rw [this]
      omega
    rw [hm]
    rw [div_eq_div_iff h2s h100]
    push_cast
    ring

theorem div100fl_eq_div_iff (n : Nat) (hn : n < 2 ^ 32) :
    (div100fl n = (n : ℚ) / 100) ↔ 25 ∣ n := by
  by_cases h0 : n = 0
  · subst h0
    simp [div100fl]
  · have hL : bitlen 64 n ≤ 32 := bitlen_le 64 32 n hn (by omega)
    have hd : div100fl n =
        ((((2 * n * 2 ^ (if 25 * 2 ^ bitlen 64 n ≤ 32 * n then
              59 - bitlen 64 n else 60 - bitlen 64 n) + 100) / 200 : Nat) : ℚ) /
          2 ^ (if 25 * 2 ^ bitlen 64 n ≤ 32 * n then
              59 - bitlen 64 n else 60 - bitlen 64 n)) := by
      simp only [div100fl]
      rw [if_neg h0]
    rw [hd]
    apply round_div100_eq_iff
    split <;> omega

/-! ### Further helper lemmas -/

theorem recordBytes_length (d o h l c a v r : Nat) :
    (recordBytes d o h l c a v r).length = 32 := by
  simp [recordBytes, le32]

/-- A file holding exactly one decodable 32-byte record whose date fits a
pandas `Timestamp` decodes to exactly that row (a one-row table is
already sorted). -/
theorem parse_single (name : List Char) (ch : List Nat) (bar : PriceBar)
    (hlen : ch.length = 32)
    (hd : decodeChunk (removeDay name) ch = some bar)
    (hb : dateInBounds bar.date = true) :
    parse_tdx_day_file name (.content ch) = ⟨.value (some [bar]), []⟩ := by
  have hch : ch ++ ([] : List Nat) = ch := List.append_nil ch
  have hl := parseLoop_chunk (removeDay name) ch [] hlen
  rw [hch] at hl
  rcases hu : structUnpack ch with _ | u
  · simp only [decodeChunk, hu] at hd
    exact Option.noConfusion hd
  · simp only [decodeChunk, hu] at hd
    rcases hp : parseYMD u.date_int with _ | ymd
    · simp only [hp] at hd
      exact Option.noConfusion hd
    · simp only [hp, Option.some.injEq] at hd
      have hnil : parseLoop (removeDay name) ([] : List Nat).length [] =
          ([], []) := rfl
      simp only [hu, hp, hnil, hd] at hl
      simp only [parse_tdx_day_file, hl]
      rw [if_neg (by simp), if_pos (by simp [hb])]
      rfl

/-- A file holding exactly one decodable 32-byte record whose date does
NOT fit a pandas `Timestamp` makes the call terminate with the uncaught
`OutOfBoundsDatetime` of line 109: no value is returned at all. -/
theorem parse_single_oob (name : List Char) (ch : List Nat) (bar : PriceBar)
    (hlen : ch.length = 32)
    (hd : decodeChunk (removeDay name) ch = some bar)
    (hb : dateInBounds bar.date = false) :
    parse_tdx_day_file name (.content ch) = ⟨.raised, []⟩ := by
  have hch : ch ++ ([] : List Nat) = ch := List.append_nil ch
  have hl := parseLoop_chunk (removeDay name) ch [] hlen
  rw [hch] at hl
  rcases hu : structUnpack ch with _ | u
  · simp only [decodeChunk, hu] at hd
    exact Option.noConfusion hd
  · simp only [decodeChunk, hu] at hd
    rcases hp : parseYMD u.date_int with _ | ymd
    · simp only [hp] at hd
      exact Option.noConfusion hd
    · simp only [hp, Option.some.injEq] at hd
      have hnil : parseLoop (removeDay name) ([] : List Nat).length [] =
          ([], []) := rfl
      simp only [hu, hp, hnil, hd] at hl
      simp only [parse_tdx_day_file, hl]
      rw [if_neg (by simp), if_neg (by simp [hb])]

/-- All-`some` `filterMap` keeps every element. -/
theorem length_filterMap_all_isSome {α β : Type} (f : α → Option β) :
    ∀ l : List α, (∀ x ∈ l, (f x).isSome) →
      (l.filterMap f).length = l.length := by
  intro l
  induction l with
  | nil => intro _; rfl
  | cons a t ih =>
    intro hall
    have ha : (f a).isSome := hall a (List.mem_cons_self a t)
    rcases hfa : f a with _ | b
    · rw [hfa] at ha; simp at ha
    · simp only [List.filterMap_cons, hfa, List.length_cons,
        ih fun x hx => hall x (List.mem_cons_of_mem a hx)]

theorem flatten_len32 (chunks : List (List Nat))
    (h : ∀ ch ∈ chunks, ch.length = 32) :
    chunks.flatten.length = 32 * chunks.length := by
  induction chunks with
  | nil => rfl
  | cons c cs ih =>
    have hc : c.length = 32 := h c (List.mem_cons_self c cs)
    have hcs := ih fun ch hm => h ch (List.mem_cons_of_mem c hm)
    rw [List.flatten_cons, List.length_append, hc, hcs, List.length_cons]
    omega

/-- Truncating the content to its full 32-byte chunks changes nothing. -/
theorem parse_content_take (name : List Char) (bytes : List Nat) :
    parse_tdx_day_file name (.content bytes) =
      parse_tdx_day_file name
        (.content (bytes.take (bytes.length / 32 * 32))) := by
  have h1 : parseLoop (removeDay name) bytes.length bytes =
      parseLoop (removeDay name)
        (bytes.take (bytes.length / 32 * 32)).length
        (bytes.take (bytes.length / 32 * 32)) := by
    rw [parseLoop_take bytes.length bytes]
    apply parseLoop_fuelEq
    · simp
    · exact le_rfl
  simp only [parse_tdx_day_file, h1]

/-- The diagnostic one 32-byte chunk contributes, if any: the
`struct.error` message for an unpack failure, the invalid-date warning for
a date-parse failure, nothing for a decoded record. -/
def chunkDiag (ch : List Nat) : Option Diag :=
  match structUnpack ch with
  | none => some Diag.unpackError
  | some u =>
    match parseYMD u.date_int with
    | none => some (Diag.invalidDate u.date_int)
    | some _ => none

/-- On a concatenation of full 32-byte chunks, the diagnostics are
exactly the per-chunk warnings of the records that fail, in file order. -/
theorem parseLoop_flatten_diags :
    ∀ (chunks : List (List Nat)) (code : List Char),
      (∀ ch ∈ chunks, ch.length = 32) →
      (parseLoop code chunks.flatten.length chunks.flatten).2 =
        chunks.filterMap chunkDiag := by
  intro chunks
  induction chunks with
  | nil => intro code _; rfl
  | cons c cs ih =>
    intro code hlen
    have hc : c.length = 32 := hlen c (List.mem_cons_self c cs)
    have hcs : ∀ ch ∈ cs, ch.length = 32 := fun ch hm =>
      hlen ch (List.mem_cons_of_mem c hm)
    have ih2 := ih code hcs
    rw [List.flatten_cons, parseLoop_chunk code c cs.flatten hc]
    rw [structUnpack_of_len32 hc]
    rcases hp : parseYMD (u32At c 0) with _ | ymd <;>
      simp only [List.filterMap_cons, chunkDiag, structUnpack_of_len32 hc,
        hp, ih2]

/-! ### Claims -/

/-- C1, counterexample: the source returns the same value (`None`) for a
successfully read file that decodes to zero rows and for a missing file —
the empty-result outcome is not a distinct value, and the caller cannot
tell "no data decoded" apart from "file unreadable" from the returned
value alone (only the printed diagnostics differ). -/
theorem c1_counterexample :
    parse_tdx_day_file ['a'] (.content []) =
      ⟨.value none, [Diag.emptyResult]⟩ ∧
    parse_tdx_day_file ['a'] .missing =
      ⟨.value none, [Diag.fileNotFound]⟩ ∧
    (parse_tdx_day_file ['a'] (.content [])).result =
      (parse_tdx_day_file ['a'] .missing).result :=
  ⟨rfl, rfl, rfl⟩

/-- C1, amended: the returned value is `None` exactly when the file is
missing, the read raises, or zero valid records were decoded; these three
outcomes share the single value `None` and are distinguished only by
diagnostics, never by the returned value. -/
theorem c1_none_iff (name : List Char) (input : FileInput) :
    (parse_tdx_day_file name input).result = .value none ↔
      (input = .missing ∨ input = .ioError ∨
        ∃ bytes, input = .content bytes ∧
          (parseLoop (removeDay name) bytes.length bytes).1 = []) := by
  cases input with
  | missing => simp [parse_tdx_day_file]
  | ioError => simp [parse_tdx_day_file]
  | content bytes =>
    simp only [parse_tdx_day_file]
    by_cases hb : (parseLoop (removeDay name) bytes.length bytes).1.isEmpty
    · rw [if_pos hb]
      simp [List.isEmpty_iff.1 hb]
    · rw [if_neg hb]
      have hb2 : (parseLoop (removeDay name) bytes.length bytes).1 ≠ [] := by
        simpa [List.isEmpty_iff] using hb
      by_cases hall : (parseLoop (removeDay name) bytes.length bytes).1.all
          (fun bar => dateInBounds bar.date)
      · rw [if_pos hall]
        simp [hb2]
      · rw [if_neg hall]
        simp [hb2]

theorem c1_none_iff_witness :
    (parse_tdx_day_file ['a'] FileInput.missing).result =
      PyOutcome.value none :=
  (c1_none_iff ['a'] .missing).mpr (Or.inl rfl)

/-- A file holding a single record with a valid eight-digit date inside
the pandas `Timestamp` range decodes to exactly one row with the stated
fields (composition of the lemmas above). -/
theorem parse_recordBytes (y m d o h l c a v r : Nat) (name : List Char)
    (hy1 : 1000 ≤ y) (hy2 : y ≤ 9999) (hm1 : 1 ≤ m) (hm2 : m ≤ 12)
    (hd1 : 1 ≤ d) (hd2 : d ≤ daysInMonth y m)
    (hlo : 16770922 ≤ y * 10000 + m * 100 + d)
    (hhi : y * 10000 + m * 100 + d ≤ 22620411)
    (ho : o < 2 ^ 32) (hh : h < 2 ^ 32) (hl : l < 2 ^ 32) (hc : c < 2 ^ 32)
    (ha : a < 2 ^ 32) (hv : v < 2 ^ 32) :
    parse_tdx_day_file name
        (.content (recordBytes (y * 10000 + m * 100 + d) o h l c a v r)) =
      ⟨.value (some [⟨(y, m, d), removeDay name, div100fl o, div100fl h,
             div100fl l, div100fl c, v, f32toRat a⟩]), []⟩ :=
  parse_single name _ _ (recordBytes_length _ _ _ _ _ _ _ _)
    (decodeChunk_recordBytes y m d o h l c a v r _ hy1 hy2 hm1 hm2 hd1 hd2
      ho hh hl hc ha hv)
    (by simp only [dateInBounds, dateKey, Bool.and_eq_true, decide_eq_true_eq]
        omega)

/-! Concrete values of the irreducible-ℚ helpers, established by
`norm_num` (the rational operations of the library are not reducible by
`decide`). -/

theorem div100fl_350000 : div100fl 350000 = 3500 := by
  have hb : bitlen 64 350000 = 19 := by decide
  simp only [div100fl, hb]
  norm_num

theorem div100fl_355000 : div100fl 355000 = 3550 := by
  have hb : bitlen 64 355000 = 19 := by decide
  simp only [div100fl, hb]
  norm_num

theorem div100fl_348000 : div100fl 348000 = 3480 := by
  have hb : bitlen 64 348000 = 19 := by decide
  simp only [div100fl, hb]
  norm_num

theorem div100fl_352000 : div100fl 352000 = 3520 := by
  have hb : bitlen 64 352000 = 19 := by decide
  simp only [div100fl, hb]
  norm_num

theorem div100fl_one :
    div100fl 1 = (5764607523034235 : ℚ) / 576460752303423488 := by
  have hb : bitlen 64 1 = 1 := by decide
  simp only [div100fl, hb]
  norm_num

theorem f32toRat_123456 : f32toRat 1206984704 = 123456 := by
  simp only [f32toRat]
  norm_num

/-- C2, counterexample: the record dated 15000101 — a valid YYYYMMDD
calendar date (1500-01-01) — yields no PriceBar at all: the date passes
`strptime` and the row is accumulated, but `pd.to_datetime` (line 109,
outside the `try/except`) raises an uncaught `OutOfBoundsDatetime`
because 1500-01-01 precedes the pandas nanosecond-`Timestamp` minimum, so
the program aborts instead of returning the decoded row. -/
theorem c2_counterexample :
    decodeChunk (removeDay ['a']) (recordBytes 15000101 1 1 1 1 0 1 0) =
      some ⟨(1500, 1, 1), removeDay ['a'], div100fl 1, div100fl 1,
            div100fl 1, div100fl 1, 1, f32toRat 0⟩ ∧
    parse_tdx_day_file ['a']
        (.content (recordBytes 15000101 1 1 1 1 0 1 0)) =
      ⟨.raised, []⟩ := by
  have hd : decodeChunk (removeDay ['a'])
      (recordBytes 15000101 1 1 1 1 0 1 0) =
      some ⟨(1500, 1, 1), removeDay ['a'], div100fl 1, div100fl 1,
            div100fl 1, div100fl 1, 1, f32toRat 0⟩ := by
    rw [show (15000101 : Nat) = 1500 * 10000 + 1 * 100 + 1 by norm_num]
    exact decodeChunk_recordBytes 1500 1 1 1 1 1 1 0 1 0 (removeDay ['a'])
      (by norm_num) (by norm_num) (by norm_num) (by norm_num) (by norm_num)
      (by decide) (by norm_num) (by norm_num) (by norm_num) (by norm_num)
      (by norm_num) (by norm_num)
  exact ⟨hd, parse_single_oob ['a'] _ _ (recordBytes_length _ _ _ _ _ _ _ _)
    hd (by decide)⟩

/-- C2, amended: a full 32-byte record whose little-endian date field is
the decimal `YYYYMMDD` form of a valid calendar date (four-digit year, so
the integer has exactly eight digits) *within the pandas
nanosecond-`Timestamp` range of representable midnights
(1677-09-22 .. 2262-04-11)* decodes to a row carrying exactly that date
— outside that range `pd.to_datetime` raises and no row is returned —
and the concrete scenario record decodes to the stated row (open 3500,
high 3550, low 3480, close 3520, volume 98765, amount 123456.0,
date 2024-01-02). -/
theorem c2_dates_decoded_exactly :
    (∀ y m d o h l c a v r (name : List Char),
      1000 ≤ y → y ≤ 9999 → 1 ≤ m → m ≤ 12 → 1 ≤ d → d ≤ daysInMonth y m →
      16770922 ≤ y * 10000 + m * 100 + d →
      y * 10000 + m * 100 + d ≤ 22620411 →
      o < 2 ^ 32 → h < 2 ^ 32 → l < 2 ^ 32 → c < 2 ^ 32 → a < 2 ^ 32 →
      v < 2 ^ 32 →
      parse_tdx_day_file name
          (.content (recordBytes (y * 10000 + m * 100 + d) o h l c a v r)) =
        ⟨.value (some [⟨(y, m, d), removeDay name, div100fl o, div100fl h,
               div100fl l, div100fl c, v, f32toRat a⟩]), []⟩) ∧
    parse_tdx_day_file "sh000001.day".toList
        (.content (recordBytes 20240102 350000 355000 348000 352000
          1206984704 98765 0)) =
      ⟨.value (some [⟨(2024, 1, 2), "sh000001".toList, 3500, 3550, 3480,
             3520, 98765, 123456⟩]), []⟩ := by
  constructor
  · intro y m d o h l c a v r name hy1 hy2 hm1 hm2 hd1 hd2 hlo hhi
      ho hh hl hc ha hv
    exact parse_recordBytes y m d o h l c a v r name hy1 hy2 hm1 hm2 hd1 hd2
      hlo hhi ho hh hl hc ha hv
  · rw [show (20240102 : Nat) = 2024 * 10000 + 1 * 100 + 2 by norm_num]
    rw [parse_recordBytes 2024 1 2 350000 355000 348000 352000 1206984704
      98765 0 _ (by norm_num) (by norm_num) (by norm_num) (by norm_num)
      (by norm_num) (by decide) (by norm_num) (by norm_num) (by norm_num)
      (by norm_num) (by norm_num) (by norm_num) (by norm_num) (by norm_num)]
    rw [div100fl_350000, div100fl_355000, div100fl_348000, div100fl_352000,
      f32toRat_123456]
    rw [show removeDay "sh000001.day".toList = "sh000001".toList by decide]

theorem c2_witness :
    parse_tdx_day_file ['x']
        (.content (recordBytes 20240229 100 200 300 400 0 7 9)) =
      ⟨.value (some [⟨(2024, 2, 29), ['x'], div100fl 100, div100fl 200,
             div100fl 300, div100fl 400, 7, f32toRat 0⟩]), []⟩ := by
  rw [show (20240229 : Nat) = 2024 * 10000 + 2 * 100 + 29 by norm_num]
  rw [c2_dates_decoded_exactly.1 2024 2 29 100 200 300 400 0 7 9 ['x']
    (by norm_num) (by norm_num) (by norm_num) (by norm_num) (by norm_num)
    (by decide) (by norm_num) (by norm_num) (by norm_num) (by norm_num)
    (by norm_num) (by norm_num) (by norm_num) (by norm_num)]
  rw [show removeDay ['x'] = ['x'] by decide]

/-- C3, counterexample: the decoded open price of a record with raw open
field 1 is the binary64 value 5764607523034235 / 2^59 (what Python's
`1 / 100.0` yields), which is not the exact rational 1/100 — prices are
not "exactly raw/100". -/
theorem c3_counterexample :
    (parse_tdx_day_file ['a']
        (.content (recordBytes 20240102 1 355000 348000 352000 0 98765 0))
      ).result =
      .value (some [⟨(2024, 1, 2), ['a'],
            (5764607523034235 : ℚ) / 576460752303423488,
            div100fl 355000, div100fl 348000, div100fl 352000, 98765,
            f32toRat 0⟩]) ∧
    (5764607523034235 : ℚ) / 576460752303423488 ≠ (1 : ℚ) / 100 := by
  constructor
  · rw [show (20240102 : Nat) = 2024 * 10000 + 1 * 100 + 2 by norm_num]
    rw [parse_recordBytes 2024 1 2 1 355000 348000 352000 0 98765 0 ['a']
      (by norm_num) (by norm_num) (by norm_num) (by norm_num) (by norm_num)
      (by decide) (by norm_num) (by norm_num) (by norm_num) (by norm_num)
      (by norm_num) (by norm_num) (by norm_num) (by norm_num)]
    rw [div100fl_one, show removeDay ['a'] = ['a'] by decide]
  · intro h
    rw [div_eq_div_iff (by norm_num) (by norm_num)] at h
    norm_num at h

/-- C3, amended: each decoded price field equals the exact value of the
IEEE-754 binary64 result of `raw / 100.0`; that value equals the exact
rational raw/100 (2 exact decimal digits) precisely when 25 divides the
raw field, and is otherwise the nearest representable neighbour. -/
theorem c3_price_scaling :
    (∀ (code : List Char) (chunk : List Nat) (bar : PriceBar),
      decodeChunk code chunk = some bar →
      ∃ u, structUnpack chunk = some u ∧
        bar.open_price = div100fl u.open_raw ∧
        bar.high_price = div100fl u.high_raw ∧
        bar.low_price = div100fl u.low_raw ∧
        bar.close_price = div100fl u.close_raw) ∧
    (∀ n : Nat, n < 2 ^ 32 → ((div100fl n = (n : ℚ) / 100) ↔ 25 ∣ n)) := by
  constructor
  · intro code chunk bar hd
    rcases hu : structUnpack chunk with _ | u
    · simp only [decodeChunk, hu] at hd
      exact Option.noConfusion hd
    · simp only [decodeChunk, hu] at hd
      rcases hp : parseYMD u.date_int with _ | ymd
      · simp only [hp] at hd
        exact Option.noConfusion hd
      · simp only [hp] at hd
        cases hd
        exact ⟨u, rfl, rfl, rfl, rfl, rfl⟩
  · exact fun n hn => div100fl_eq_div_iff n hn

theorem c3_witness :
    div100fl 25 = (25 : ℚ) / 100 ∧
    ∃ u, structUnpack (recordBytes 20240102 100 200 300 400 0 7 0) =
        some u ∧
      (⟨(2024, 1, 2), ['a'], div100fl 100, div100fl 200, div100fl 300,
        div100fl 400, 7, f32toRat 0⟩ : PriceBar).open_price =
        div100fl u.open_raw ∧
      (⟨(2024, 1, 2), ['a'], div100fl 100, div100fl 200, div100fl 300,
        div100fl 400, 7, f32toRat 0⟩ : PriceBar).high_price =
        div100fl u.high_raw ∧
      (⟨(2024, 1, 2), ['a'], div100fl 100, div100fl 200, div100fl 300,
        div100fl 400, 7, f32toRat 0⟩ : PriceBar).low_price =
        div100fl u.low_raw ∧
      (⟨(2024, 1, 2), ['a'], div100fl 100, div100fl 200, div100fl 300,
        div100fl 400, 7, f32toRat 0⟩ : PriceBar).close_price =
        div100fl u.close_raw :=
  ⟨(c3_price_scaling.2 25 (by norm_num)).mpr ⟨1, rfl⟩,
   c3_price_scaling.1 ['a'] (recordBytes 20240102 100 200 300 400 0 7 0) _
     (by
       rw [show (20240102 : Nat) = 2024 * 10000 + 1 * 100 + 2 by norm_num]
       exact decodeChunk_recordBytes 2024 1 2 100 200 300 400 0 7 0 ['a']
         (by norm_num) (by norm_num) (by norm_num) (by norm_num)
         (by norm_num) (by decide) (by norm_num) (by norm_num) (by norm_num)
         (by norm_num) (by norm_num) (by norm_num))⟩

/-- C4, counterexample: a single well-formed record dated 26000101 — a
valid YYYYMMDD calendar date (2600-01-01) that `strptime` accepts, so the
record is kept, not dropped — aborts the whole decode: `pd.to_datetime`
(line 109, outside the `try/except`) raises an uncaught
`OutOfBoundsDatetime` because 2600-01-01 exceeds the pandas `Timestamp`
maximum.  The result therefore does not contain the valid record's
PriceBar, and decoding does not "continue, never aborting". -/
theorem c4_counterexample :
    decodeChunk (removeDay ['a']) (recordBytes 26000101 2 2 2 2 0 2 0) =
      some ⟨(2600, 1, 1), removeDay ['a'], div100fl 2, div100fl 2,
            div100fl 2, div100fl 2, 2, f32toRat 0⟩ ∧
    parse_tdx_day_file ['a']
        (.content (recordBytes 26000101 2 2 2 2 0 2 0)) =
      ⟨.raised, []⟩ := by
  have hd : decodeChunk (removeDay ['a'])
      (recordBytes 26000101 2 2 2 2 0 2 0) =
      some ⟨(2600, 1, 1), removeDay ['a'], div100fl 2, div100fl 2,
            div100fl 2, div100fl 2, 2, f32toRat 0⟩ := by
    rw [show (26000101 : Nat) = 2600 * 10000 + 1 * 100 + 1 by norm_num]
    exact decodeChunk_recordBytes 2600 1 1 2 2 2 2 0 2 0 (removeDay ['a'])
      (by norm_num) (by norm_num) (by norm_num) (by norm_num) (by norm_num)
      (by decide) (by norm_num) (by norm_num) (by norm_num) (by norm_num)
      (by norm_num) (by norm_num)
  exact ⟨hd, parse_single_oob ['a'] _ _ (recordBytes_length _ _ _ _ _ _ _ _)
    hd (by decide)⟩

/-- C4, amended: on a concatenation of full 32-byte records *whose
decodable dates all fit a pandas `Timestamp`*, exactly the records whose
date field fails to parse are dropped (each with its warning diagnostic,
never aborting); the result holds exactly the rows of the records that
decode — all `N` of them when every date is valid.  (Without the range
restriction the program aborts with the uncaught `OutOfBoundsDatetime` of
line 109, per the counterexample.) -/
theorem c4_invalid_dates_dropped (name : List Char) (chunks : List (List Nat))
    (h32 : ∀ ch ∈ chunks, ch.length = 32)
    (hbnd : ∀ bar ∈ chunks.filterMap (decodeChunk (removeDay name)),
      dateInBounds bar.date = true) :
    ((parse_tdx_day_file name (.content chunks.flatten)).result =
      if (chunks.filterMap (decodeChunk (removeDay name))).isEmpty then
        .value none
      else .value (some (List.insertionSort barLE
        (chunks.filterMap (decodeChunk (removeDay name)))))) ∧
    (∀ l, (parse_tdx_day_file name (.content chunks.flatten)).result =
        .value (some l) →
      l.Perm (chunks.filterMap (decodeChunk (removeDay name))) ∧
      l.length = (chunks.filterMap (decodeChunk (removeDay name))).length) ∧
    ((∀ ch ∈ chunks, (decodeChunk (removeDay name) ch).isSome) →
      (chunks.filterMap (decodeChunk (removeDay name))).length =
        chunks.length) ∧
    ((parse_tdx_day_file name (.content chunks.flatten)).diags =
      chunks.filterMap chunkDiag ++
        (if (chunks.filterMap (decodeChunk (removeDay name))).isEmpty then
          [Diag.emptyResult] else [])) := by
  have hbars := parseLoop_flatten_bars chunks (removeDay name) h32
  have hdiags := parseLoop_flatten_diags chunks (removeDay name) h32
  have hall : (chunks.filterMap (decodeChunk (removeDay name))).all
      (fun bar => dateInBounds bar.date) = true := by
    rw [List.all_eq_true]
    exact hbnd
  have hres : (parse_tdx_day_file name (.content chunks.flatten)).result =
      if (chunks.filterMap (decodeChunk (removeDay name))).isEmpty then
        PyOutcome.value none
      else .value (some (List.insertionSort barLE
        (chunks.filterMap (decodeChunk (removeDay name))))) := by
    simp only [parse_tdx_day_file]
    rw [hbars]
    by_cases he : (chunks.filterMap (decodeChunk (removeDay name))).isEmpty
    · rw [if_pos he, if_pos he]
    · rw [if_neg he, if_pos hall, if_neg he]
  refine ⟨hres, ?_, ?_, ?_⟩
  · intro l hl
    rw [hres] at hl
    by_cases he : (chunks.filterMap (decodeChunk (removeDay name))).isEmpty
    · rw [if_pos he] at hl
      simp at hl
    · rw [if_neg he] at hl
      simp only [PyOutcome.value.injEq, Option.some.injEq] at hl
      rw [← hl]
      exact ⟨List.perm_insertionSort barLE _, List.length_insertionSort _ _⟩
  · exact length_filterMap_all_isSome _ chunks
  · simp only [parse_tdx_day_file]
    rw [hbars, hdiags]
    by_cases he : (chunks.filterMap (decodeChunk (removeDay name))).isEmpty
    · rw [if_pos he, if_pos he]
    · rw [if_neg he, if_pos hall, if_neg he, List.append_nil]

theorem c4_witness :
    (parse_tdx_day_file ['a']
        (.content (List.flatten [recordBytes 20240102 5 5 5 5 0 5 0,
                                 recordBytes 20241301 5 5 5 5 0 5 0]))).result =
      .value (some [⟨(2024, 1, 2), removeDay ['a'], div100fl 5, div100fl 5,
            div100fl 5, div100fl 5, 5, f32toRat 0⟩]) := by
  have hA : decodeChunk (removeDay ['a'])
      (recordBytes 20240102 5 5 5 5 0 5 0) =
      some ⟨(2024, 1, 2), removeDay ['a'], div100fl 5, div100fl 5,
            div100fl 5, div100fl 5, 5, f32toRat 0⟩ := by
    rw [show (20240102 : Nat) = 2024 * 10000 + 1 * 100 + 2 by norm_num]
    exact decodeChunk_recordBytes 2024 1 2 5 5 5 5 0 5 0 (removeDay ['a'])
      (by norm_num) (by norm_num) (by norm_num) (by norm_num) (by norm_num)
      (by decide) (by norm_num) (by norm_num) (by norm_num) (by norm_num)
      (by norm_num) (by norm_num)
  have hB : decodeChunk (removeDay ['a'])
      (recordBytes 20241301 5 5 5 5 0 5 0) = none := by decide
  have h := (c4_invalid_dates_dropped ['a']
    [recordBytes 20240102 5 5 5 5 0 5 0, recordBytes 20241301 5 5 5 5 0 5 0]
    (by decide)
    (by
      intro bar hbar
      simp only [List.filterMap_cons, hA, hB, List.filterMap_nil] at hbar
      rcases List.mem_cons.1 hbar with rfl | hbar2
      · decide
      · exact absurd hbar2 (List.not_mem_nil _))).1
  rw [h]
  simp only [List.filterMap_cons, hA, hB, List.filterMap_nil]
  rfl

/-- C5: whenever decode returns a row sequence, that sequence is sorted
non-decreasing by date, whatever the record order in the file was. -/
theorem c5_output_sorted (name : List Char) (input : FileInput)
    (l : List PriceBar)
    (h : (parse_tdx_day_file name input).result = .value (some l)) :
    l.Sorted barLE := by
  cases input with
  | missing => exact absurd h (by simp [parse_tdx_day_file])
  | ioError => exact absurd h (by simp [parse_tdx_day_file])
  | content bytes =>
    simp only [parse_tdx_day_file] at h
    by_cases hb : (parseLoop (removeDay name) bytes.length bytes).1.isEmpty
    · rw [if_pos hb] at h
      exact absurd h (by simp)
    · rw [if_neg hb] at h
      by_cases hall : (parseLoop (removeDay name) bytes.length bytes).1.all
          (fun bar => dateInBounds bar.date)
      · rw [if_pos hall] at h
        have h2 : List.insertionSort barLE
            (parseLoop (removeDay name) bytes.length bytes).1 = l := by
          simpa using h
        rw [← h2]
        exact List.sorted_insertionSort barLE _
      · rw [if_neg hall] at h
        exact absurd h (by simp)

theorem c5_witness :
    List.Sorted barLE [⟨(2024, 2, 29), removeDay ['w'], div100fl 1,
      div100fl 1, div100fl 1, div100fl 1, 5, f32toRat 0⟩] :=
  c5_output_sorted ['w']
    (.content (recordBytes 20240229 1 1 1 1 0 5 0)) _
    (by
      rw [show (20240229 : Nat) = 2024 * 10000 + 2 * 100 + 29 by norm_num]
      rw [parse_recordBytes 2024 2 29 1 1 1 1 0 5 0 ['w'] (by norm_num)
        (by norm_num) (by norm_num) (by norm_num) (by norm_num) (by decide)
        (by norm_num) (by norm_num) (by norm_num) (by norm_num) (by norm_num)
        (by norm_num) (by norm_num) (by norm_num)])

/-- C6: whatever the input bytes, only the full 32-byte chunks matter: the
outcome on any content equals the outcome on its truncation to a multiple
of 32 bytes, and appending a partial tail (< 32 bytes) to whole records
changes nothing — the tail is normal end-of-stream, not an error, and all
preceding full chunks are still processed. -/
theorem c6_trailing_bytes_ignored :
    (∀ (name : List Char) (bytes : List Nat),
      parse_tdx_day_file name (.content bytes) =
        parse_tdx_day_file name
          (.content (bytes.take (bytes.length / 32 * 32)))) ∧
    (∀ (name : List Char) (chunks : List (List Nat)) (t : List Nat),
      (∀ ch ∈ chunks, ch.length = 32) → t.length < 32 →
      parse_tdx_day_file name (.content (chunks.flatten ++ t)) =
        parse_tdx_day_file name (.content chunks.flatten)) := by
  refine ⟨parse_content_take, ?_⟩
  intro name chunks t h32 ht
  have hlen : chunks.flatten.length = 32 * chunks.length :=
    flatten_len32 chunks h32
  have hdiv : (chunks.flatten ++ t).length / 32 * 32 =
      chunks.flatten.length := by
    rw [List.length_append, hlen]
    omega
  have htake : (chunks.flatten ++ t).take
      ((chunks.flatten ++ t).length / 32 * 32) = chunks.flatten := by
    rw [hdiv]
    exact List.take_left _ _
  rw [parse_content_take name (chunks.flatten ++ t), htake]

theorem c6_witness :
    parse_tdx_day_file ['a']
        (.content (List.flatten [recordBytes 20240102 1 1 1 1 0 1 0] ++
          [9, 9, 9])) =
      parse_tdx_day_file ['a']
        (.content (List.flatten [recordBytes 20240102 1 1 1 1 0 1 0])) :=
  c6_trailing_bytes_ignored.2 ['a'] [recordBytes 20240102 1 1 1 1 0 1 0]
    [9, 9, 9] (by decide) (by decide)

/-- C7, counterexample: a path to an existing but unreadable file (or a
directory) does not reference an existing, readable file, yet decode does
not take the not-found outcome: `os.path.exists` (line 29) passes, `open`
raises, and the `except` at line 97 prints the read-error diagnostic
(读取文件时发生严重错误), not the file-not-found one. -/
theorem c7_counterexample :
    parse_tdx_day_file ['a'] .ioError =
      ⟨.value none, [Diag.readError]⟩ ∧
    (parse_tdx_day_file ['a'] .ioError).diags ≠
      (parse_tdx_day_file ['a'] .missing).diags :=
  ⟨rfl, by decide⟩

/-- C7, amended: only a path failing the `os.path.exists` check yields the
not-found outcome — the `None` return with the file-not-found diagnostic
and no output sequence; a path that exists but cannot be opened or read
instead yields the read-error outcome: the same `None` return but with
the read-error diagnostic, likewise with no (partial) output sequence. -/
theorem c7_missing_vs_unreadable (name : List Char) :
    parse_tdx_day_file name .missing =
      ⟨.value none, [Diag.fileNotFound]⟩ ∧
    parse_tdx_day_file name .ioError =
      ⟨.value none, [Diag.readError]⟩ :=
  ⟨rfl, rfl⟩

/-- C8, counterexample: for the base name `a.day.day` the claim predicts
the identifier `a.day` (base name minus its extension), but the source's
`.replace('.day', '')` removes every occurrence and produces `a`. -/
theorem c8_counterexample :
    (parse_tdx_day_file "a.day.day".toList
        (.content (recordBytes 20240102 1 1 1 1 0 1 0))).result =
      .value (some [⟨(2024, 1, 2), ['a'], div100fl 1, div100fl 1,
            div100fl 1, div100fl 1, 1, f32toRat 0⟩]) ∧
    removeDay "a.day.day".toList = ['a'] ∧
    specStripExt "a.day.day".toList = "a.day".toList ∧
    (['a'] : List Char) ≠ "a.day".toList := by
  refine ⟨?_, by decide, by decide, by decide⟩
  rw [show (20240102 : Nat) = 2024 * 10000 + 1 * 100 + 2 by norm_num]
  rw [parse_recordBytes 2024 1 2 1 1 1 1 0 1 0 _ (by norm_num) (by norm_num)
    (by norm_num) (by norm_num) (by norm_num) (by decide) (by norm_num)
    (by norm_num) (by norm_num) (by norm_num) (by norm_num) (by norm_num)
    (by norm_num) (by norm_num)]
  rw [show removeDay "a.day.day".toList = ['a'] by decide]

/-- C8, amended: every row of one decode call carries the same identifier,
namely the base name with every occurrence of the substring `.day`
removed (which agrees with extension-stripping for ordinary names of the
form `stem.day`). -/
theorem c8_stock_code_uniform (name : List Char) (input : FileInput)
    (l : List PriceBar)
    (h : (parse_tdx_day_file name input).result = .value (some l)) :
    ∀ bar ∈ l, bar.stock_code = removeDay name := by
  cases input with
  | missing => exact absurd h (by simp [parse_tdx_day_file])
  | ioError => exact absurd h (by simp [parse_tdx_day_file])
  | content bytes =>
    simp only [parse_tdx_day_file] at h
    by_cases hb : (parseLoop (removeDay name) bytes.length bytes).1.isEmpty
    · rw [if_pos hb] at h
      exact absurd h (by simp)
    · rw [if_neg hb] at h
      by_cases hall : (parseLoop (removeDay name) bytes.length bytes).1.all
          (fun bar => dateInBounds bar.date)
      · rw [if_pos hall] at h
        have h2 : List.insertionSort barLE
            (parseLoop (removeDay name) bytes.length bytes).1 = l := by
          simpa using h
        intro bar hbar
        rw [← h2] at hbar
        exact parseLoop_stock_code _ _ _ _
          ((List.mem_insertionSort barLE).1 hbar)
      · rw [if_neg hall] at h
        exact absurd h (by simp)

theorem c8_witness :
    (⟨(2024, 1, 2), removeDay ['q'], div100fl 1, div100fl 1, div100fl 1,
      div100fl 1, 1, f32toRat 0⟩ : PriceBar).stock_code =
      removeDay ['q'] :=
  c8_stock_code_uniform ['q'] (.content (recordBytes 20240102 1 1 1 1 0 1 0))
    [⟨(2024, 1, 2), removeDay ['q'], div100fl 1, div100fl 1, div100fl 1,
      div100fl 1, 1, f32toRat 0⟩]
    (by
      rw [show (20240102 : Nat) = 2024 * 10000 + 1 * 100 + 2 by norm_num]
      rw [parse_recordBytes 2024 1 2 1 1 1 1 0 1 0 ['q'] (by norm_num)
        (by norm_num) (by norm_num) (by norm_num) (by norm_num) (by decide)
        (by norm_num) (by norm_num) (by norm_num) (by norm_num) (by norm_num)
        (by norm_num) (by norm_num) (by norm_num)])
    _ (List.mem_cons_self _ _)

/-- C9: decode is a pure function of the file's bytes and name — equal
byte contents (under the same name) give identical outcomes, including
the row order; there is no hidden state. -/
theorem c9_deterministic (name : List Char) (b₁ b₂ : List Nat)
    (h : b₁ = b₂) :
    parse_tdx_day_file name (.content b₁) =
      parse_tdx_day_file name (.content b₂) := by
  rw [h]

theorem c9_witness :
    parse_tdx_day_file ['a'] (.content [7]) =
      parse_tdx_day_file ['a'] (.content [7]) :=
  c9_deterministic ['a'] [7] [7] rfl

/-- C10: `struct.unpack('<IIIIIfII', ·)` succeeds on every buffer of
exactly 32 bytes, so the `struct.error` skip branch after the length
check is dead code: its diagnostic can never be emitted, on any input. -/
theorem c10_unpack_branch_unreachable :
    (∀ b : List Nat, b.length = 32 → (structUnpack b).isSome = true) ∧
    (∀ (name : List Char) (input : FileInput),
      Diag.unpackError ∉ (parse_tdx_day_file name input).diags) := by
  constructor
  · intro b hb
    rw [structUnpack_of_len32 hb]
    rfl
  · intro name input
    cases input with
    | missing =>
      intro hmem
      rcases List.mem_cons.1 hmem with he | hm
      · exact Diag.noConfusion he
      · exact absurd hm (List.not_mem_nil _)
    | ioError =>
      intro hmem
      rcases List.mem_cons.1 hmem with he | hm
      · exact Diag.noConfusion he
      · exact absurd hm (List.not_mem_nil _)
    | content bytes =>
      simp only [parse_tdx_day_file]
      by_cases hb : (parseLoop (removeDay name) bytes.length bytes).1.isEmpty
      · rw [if_pos hb]
        intro hmem
        rcases List.mem_append.1 hmem with hm | hm
        · exact parseLoop_no_unpackError _ _ _ hm
        · rcases List.mem_cons.1 hm with he | he
          · exact Diag.noConfusion he
          · exact absurd he (List.not_mem_nil _)
      · rw [if_neg hb]
        by_cases hall : (parseLoop (removeDay name) bytes.length bytes).1.all
            (fun bar => dateInBounds bar.date)
        · rw [if_pos hall]
          exact parseLoop_no_unpackError _ _ _
        · rw [if_neg hall]
          exact parseLoop_no_unpackError _ _ _

theorem c10_witness :
    (structUnpack (recordBytes 0 0 0 0 0 0 0 0)).isSome = true ∧
    Diag.unpackError ∉
      (parse_tdx_day_file ['a']
        (.content (recordBytes 0 0 0 0 0 0 0 0))).diags :=
  ⟨c10_unpack_branch_unreachable.1 _ (recordBytes_length 0 0 0 0 0 0 0 0),
   c10_unpack_branch_unreachable.2 ['a'] _⟩

end TdxDay
